import Mathlib

/-!
Verification of the financial-modeling core of `app.py` (Tracking Success v7.4).

The Python source is shallowly embedded: money amounts and percentages become
rationals (`ℚ`), month start indices become integers (`ℤ`), Python `None`
becomes `Option`, and pandas column computations become list maps.  Each
definition mirrors one place of the source, cited by line number.
-/

namespace Tracking

/-- Source `MONTHS = list(calendar.month_name)[1:]` (app.py line 31): the 12 canonical
month names, calendar order. -/
def MONTHS : List String :=
  ["January", "February", "March", "April", "May", "June",
   "July", "August", "September", "October", "November", "December"]

/-- One row of the `people_costs` table (app.py lines 136-138, 633):
columns Person, AnnualCost, StartMonth, HasVan, Comment, ExtraMonthly. -/
structure PersonCost where
  person : String
  annualCost : ℚ
  startMonth : ℤ
  hasVan : Bool
  comment : String
  extraMonthly : ℚ
deriving DecidableEq

/-- The per-person tuple `(base, start, extra)` built by the loop at app.py
lines 634-641: `base = AnnualCost/12`, `extra = ExtraMonthly`, and when
`HasVan` the van default is ADDED to `extra`. -/
def per_person (vanDefault : ℚ) (p : PersonCost) : ℚ × ℤ × ℚ :=
  (p.annualCost / 12, p.startMonth, p.extraMonthly + (if p.hasVan then vanDefault else 0))

/-- The inner accumulation of app.py lines 643-649 for one month index `idx`
(1-based): every person with `idx >= start_m` contributes `monthly + extra`. -/
def month_total (vanDefault : ℚ) (people : List PersonCost) (idx : ℤ) : ℚ :=
  (people.map (fun p =>
    let t := per_person vanDefault p
    if t.2.1 ≤ idx then t.1 + t.2.2 else 0)).sum

/-- Source `people_fixed_by_month` (app.py lines 643-649): the 12-element monthly
fixed-cost series, position `i` holding month index `i+1`. -/
def people_fixed_by_month (vanDefault : ℚ) (people : List PersonCost) : List ℚ :=
  (List.range 12).map (fun (i : ℕ) => month_total vanDefault people (Int.ofNat i + 1))

/-- The spec's claimed amortization formula (spec §4.2): `extraMonthly` if
positive, OTHERWISE the van default when `hasVan` — the mutually-exclusive
policy, written here only to be compared against `month_total`. -/
def claimed_month_total (vanDefault : ℚ) (people : List PersonCost) (idx : ℤ) : ℚ :=
  (people.map (fun p =>
    if p.startMonth ≤ idx then
      p.annualCost / 12 +
        (if 0 < p.extraMonthly then p.extraMonthly
         else if p.hasVan then vanDefault else 0)
    else 0)).sum

end Tracking

namespace Tracking

/-- C1 (counterexample): a person with `ExtraMonthly = 100` and `HasVan = true`
under van default 1200 contributes `0/12 + (100 + 1200) = 1300` in the code,
while the claim's exclusive policy would give `100`. -/
theorem tracking_c1_counterexample :
    month_total 1200 [⟨"A", 0, 1, true, "", 100⟩] 1 = 1300 ∧
    claimed_month_total 1200 [⟨"A", 0, 1, true, "", 100⟩] 1 = 100 ∧
    (1300 : ℚ) ≠ 100 := by
  refine ⟨?_, ?_, by norm_num⟩
  · norm_num [month_total, per_person]
  · norm_num [claimed_month_total]

/-- C1 (amended): the monthly fixed cost for month index `idx` is the sum,
over exactly the persons with `startMonth ≤ idx`, of
`annualCost/12 + extraMonthly + (vanDefault if hasVan else 0)` — the extra
monthly amount and the van default are ADDITIVE; persons starting later
contribute nothing. -/
theorem tracking_c1_amended (vanDefault : ℚ) (people : List PersonCost) (idx : ℤ) :
    month_total vanDefault people idx =
      ((people.filter (fun p => p.startMonth ≤ idx)).map
        (fun p => p.annualCost / 12 + p.extraMonthly +
          (if p.hasVan then vanDefault else 0))).sum := by
  induction people with
  | nil => simp [month_total]
  | cons p ps ih =>
    simp only [month_total, List.map_cons, List.sum_cons, List.filter_cons] at *
    by_cases h : p.startMonth ≤ idx
    · simp only [per_person, h, if_pos, decide_eq_true_eq] at *
      simp [h, ih]
      ring
    · simp only [per_person, h, decide_eq_true_eq] at *
      simp [h, ih]

/-- Position `i < 12` of the fixed-cost series holds the total for month
index `i+1`. -/
lemma people_fixed_by_month_getD (vanDefault : ℚ) (people : List PersonCost)
    (i : ℕ) (hi : i < 12) :
    (people_fixed_by_month vanDefault people).getD i 0 =
      month_total vanDefault people (Int.ofNat i + 1) := by
  unfold people_fixed_by_month
  rw [List.getD_eq_getElem?_getD, List.getElem?_map, List.getElem?_range hi]
  rfl

/-- Under non-negative inputs, each month's total is monotone in the month
index: a person contributes the same non-negative amount from its start
month onwards. -/
lemma month_total_mono (vanDefault : ℚ) (people : List PersonCost)
    (hvd : 0 ≤ vanDefault)
    (hpc : ∀ p ∈ people, 0 ≤ p.annualCost ∧ 0 ≤ p.extraMonthly)
    {i j : ℤ} (hij : i ≤ j) :
    month_total vanDefault people i ≤ month_total vanDefault people j := by
  unfold month_total
  refine List.sum_le_sum ?_
  intro p hp
  obtain ⟨ha, he⟩ := hpc p hp
  have hc : 0 ≤ p.annualCost / 12 + (p.extraMonthly + (if p.hasVan then vanDefault else 0)) := by
    have : 0 ≤ (if p.hasVan then vanDefault else 0) := by
      split <;> simp [hvd]
    positivity
  by_cases h1 : p.startMonth ≤ i
  · simp [per_person, h1, le_trans h1 hij]
  · by_cases h2 : p.startMonth ≤ j
    · simpa [per_person, h1, h2] using hc
    · simp [per_person, h1, h2]

end Tracking

namespace Tracking

/-- C10: assuming every person's annual cost and extra-monthly amount and the
van default are non-negative, the 12-element `people_fixed_by_month` series is
monotonically non-decreasing: position `i` (month `i+1`) is at most position
`j` (month `j+1`) whenever `i ≤ j < 12`. -/
theorem tracking_c10_mono (vanDefault : ℚ) (people : List PersonCost)
    (hvd : 0 ≤ vanDefault)
    (hpc : ∀ p ∈ people, 0 ≤ p.annualCost ∧ 0 ≤ p.extraMonthly)
    (i j : ℕ) (hij : i ≤ j) (hj : j < 12) :
    (people_fixed_by_month vanDefault people).getD i 0 ≤
      (people_fixed_by_month vanDefault people).getD j 0 := by
  rw [people_fixed_by_month_getD vanDefault people i (lt_of_le_of_lt hij hj),
    people_fixed_by_month_getD vanDefault people j hj]
  exact month_total_mono vanDefault people hvd hpc
    (by simp only [Int.ofNat_eq_natCast]; omega)

/-- C10 witness: a concrete person starting in month 3 with a van, evaluated
at positions 0 and 5 of the series. -/
theorem tracking_c10_witness :
    (people_fixed_by_month 2 [⟨"A", 12, 3, true, "", 5⟩]).getD 0 0 ≤
      (people_fixed_by_month 2 [⟨"A", 12, 3, true, "", 5⟩]).getD 5 0 :=
  tracking_c10_mono 2 [⟨"A", 12, 3, true, "", 5⟩] (by norm_num)
    (by intro p hp; simp at hp; subst hp; norm_num) 0 5 (by norm_num) (by norm_num)

end Tracking

namespace Tracking

/-- One row of the `monthly_plan` table (app.py lines 140-142). -/
structure PlanEntry where
  month : String
  plannedRevenue : ℚ
deriving DecidableEq

/-- One row of the `monthly_actuals` table (app.py lines 144-145). -/
structure ActualEntry where
  month : String
  revenueActual : ℚ
  costOfSales : ℚ
  otherOverheads : ℚ
deriving DecidableEq

/-- One row of the derived dashboard frame `df_dash` (app.py lines 858-863). -/
structure DashRow where
  month : String
  plannedRevenue : ℚ
  revenueActual : ℚ
  costOfSales : ℚ
  otherOverheads : ℚ
  peopleFixed : ℚ
  grossMargin : ℚ
  operatingProfit : ℚ
  marginPct : Option ℚ
deriving DecidableEq

/-- The `mp.merge(ma, on="Month", how="left")` lookup (app.py line 859): the
actual row whose `Month` matches; an unmatched month yields the NaN row,
which the subsequent `fillna(0.0)` turns into zeros, modelled as a zero row. -/
def mergeActual (actuals : List ActualEntry) (m : String) : ActualEntry :=
  match actuals.find? (fun a => a.month == m) with
  | some a => a
  | none => ⟨m, 0, 0, 0⟩

/-- Source lookup `people_fixed_by_month[MONTHS.index(m)]` (app.py lines 860, 911). -/
def peopleFixedFor (vanDefault : ℚ) (people : List PersonCost) (m : String) : ℚ :=
  (people_fixed_by_month vanDefault people).getD (MONTHS.indexOf m) 0

/-- The per-row column computations of app.py lines 860-863:
`GrossMargin = RevenueActual - CostOfSales`,
`OperatingProfit = GrossMargin - PeopleFixed - OtherOverheads`, and
`MarginPct = (RevenueActual-CostOfSales)/RevenueActual*100 if RevenueActual>0
else None`. -/
def mkDashRow (pf : ℚ) (p : PlanEntry) (a : ActualEntry) : DashRow :=
  { month := p.month
    plannedRevenue := p.plannedRevenue
    revenueActual := a.revenueActual
    costOfSales := a.costOfSales
    otherOverheads := a.otherOverheads
    peopleFixed := pf
    grossMargin := a.revenueActual - a.costOfSales
    operatingProfit := (a.revenueActual - a.costOfSales) - pf - a.otherOverheads
    marginPct :=
      if 0 < a.revenueActual then
        some ((a.revenueActual - a.costOfSales) / a.revenueActual * 100)
      else none }

/-- Source `df_dash` (app.py lines 858-863): one derived row per plan row, built
fresh from the plan, the actuals and the people-cost inputs on every read. -/
def df_dash (vanDefault : ℚ) (people : List PersonCost)
    (plan : List PlanEntry) (actuals : List ActualEntry) : List DashRow :=
  plan.map (fun p =>
    mkDashRow (peopleFixedFor vanDefault people p.month) p (mergeActual actuals p.month))

end Tracking

namespace Tracking

/-- C5: every row of the freshly recomputed `df_dash` satisfies
`operatingProfit = revenueActual - costOfSales - peopleFixed - otherOverheads`
exactly. -/
theorem tracking_c5_operating_profit (vanDefault : ℚ) (people : List PersonCost)
    (plan : List PlanEntry) (actuals : List ActualEntry) (r : DashRow)
    (hr : r ∈ df_dash vanDefault people plan actuals) :
    r.operatingProfit = r.revenueActual - r.costOfSales - r.peopleFixed - r.otherOverheads := by
  obtain ⟨p, _, rfl⟩ := List.mem_map.mp hr
  simp [mkDashRow]

/-- C5 witness: the January row of a one-month dashboard. -/
theorem tracking_c5_witness :
    (mkDashRow (peopleFixedFor 0 [] "January") ⟨"January", 10⟩
        (mergeActual [⟨"January", 5, 2, 1⟩] "January")).operatingProfit =
      (mkDashRow (peopleFixedFor 0 [] "January") ⟨"January", 10⟩
        (mergeActual [⟨"January", 5, 2, 1⟩] "January")).revenueActual -
      (mkDashRow (peopleFixedFor 0 [] "January") ⟨"January", 10⟩
        (mergeActual [⟨"January", 5, 2, 1⟩] "January")).costOfSales -
      (mkDashRow (peopleFixedFor 0 [] "January") ⟨"January", 10⟩
        (mergeActual [⟨"January", 5, 2, 1⟩] "January")).peopleFixed -
      (mkDashRow (peopleFixedFor 0 [] "January") ⟨"January", 10⟩
        (mergeActual [⟨"January", 5, 2, 1⟩] "January")).otherOverheads :=
  tracking_c5_operating_profit 0 [] [⟨"January", 10⟩] [⟨"January", 5, 2, 1⟩] _
    (by simp [df_dash])

/-- C6: on any dashboard row with non-negative revenue (the editors clamp
revenue at 0), `marginPct` is `none` exactly when `revenueActual = 0`, and
whenever it carries a value the value is
`(revenueActual - costOfSales)/revenueActual * 100` with a non-zero divisor,
so no division by zero ever occurs. -/
theorem tracking_c6_margin_pct (vanDefault : ℚ) (people : List PersonCost)
    (plan : List PlanEntry) (actuals : List ActualEntry) (r : DashRow)
    (hr : r ∈ df_dash vanDefault people plan actuals)
    (hnn : 0 ≤ r.revenueActual) :
    (r.marginPct = none ↔ r.revenueActual = 0) ∧
    (∀ q, r.marginPct = some q →
      q = (r.revenueActual - r.costOfSales) / r.revenueActual * 100 ∧
      r.revenueActual ≠ 0) := by
  obtain ⟨p, _, rfl⟩ := List.mem_map.mp hr
  simp only [mkDashRow] at hnn ⊢
  by_cases h : 0 < (mergeActual actuals p.month).revenueActual
  · constructor
    · simp [h, ne_of_gt h]
    · intro q hq
      simp only [if_pos h, Option.some.injEq] at hq
      exact ⟨hq.symm, ne_of_gt h⟩
  · have h0 : (mergeActual actuals p.month).revenueActual = 0 := le_antisymm (not_lt.mp h) hnn
    constructor
    · simp [h, h0]
    · intro q hq
      simp [h] at hq

/-- C6 witness: a row with positive revenue. -/
theorem tracking_c6_witness :
    ((mkDashRow (peopleFixedFor 0 [] "January") ⟨"January", 10⟩
        (mergeActual [⟨"January", 5, 2, 1⟩] "January")).marginPct = none ↔
      (mkDashRow (peopleFixedFor 0 [] "January") ⟨"January", 10⟩
        (mergeActual [⟨"January", 5, 2, 1⟩] "January")).revenueActual = 0) ∧
    (∀ q, (mkDashRow (peopleFixedFor 0 [] "January") ⟨"January", 10⟩
        (mergeActual [⟨"January", 5, 2, 1⟩] "January")).marginPct = some q →
      q = ((mkDashRow (peopleFixedFor 0 [] "January") ⟨"January", 10⟩
            (mergeActual [⟨"January", 5, 2, 1⟩] "January")).revenueActual -
           (mkDashRow (peopleFixedFor 0 [] "January") ⟨"January", 10⟩
            (mergeActual [⟨"January", 5, 2, 1⟩] "January")).costOfSales) /
          (mkDashRow (peopleFixedFor 0 [] "January") ⟨"January", 10⟩
            (mergeActual [⟨"January", 5, 2, 1⟩] "January")).revenueActual * 100 ∧
      (mkDashRow (peopleFixedFor 0 [] "January") ⟨"January", 10⟩
        (mergeActual [⟨"January", 5, 2, 1⟩] "January")).revenueActual ≠ 0) :=
  tracking_c6_margin_pct 0 [] [⟨"January", 10⟩] [⟨"January", 5, 2, 1⟩] _
    (by simp [df_dash]) (by norm_num [mergeActual, mkDashRow])

end Tracking

namespace Tracking

/-- Source `valid_margins` (app.py line 876): the window's `MarginPct` values that
are present (`is not None`) and strictly positive. -/
def valid_margins (rows : List DashRow) : List ℚ :=
  ((rows.map (fun r => r.marginPct)).filterMap id).filter (fun m => decide (0 < m))

/-- Source `fallback_margin` (app.py line 877): the mean of the valid margins, or
`40.0` when there are none. -/
def fallback_margin (rows : List DashRow) : ℚ :=
  if valid_margins rows = [] then 40
  else (valid_margins rows).sum / ((valid_margins rows).length : ℚ)

/-- Lines 880-881 of `compute_break_even_row`: the per-row margin percent,
replaced by the fallback `fb` when revenue is not positive (`None`) or the
margin percent is nonpositive. -/
def margin_pct_of (rev cogs fb : ℚ) : ℚ :=
  let margin_pct0 : Option ℚ :=
    if 0 < rev then some ((rev - cogs) / rev * 100) else none
  if margin_pct0 = none ∨ margin_pct0.getD 0 ≤ 0 then fb else margin_pct0.getD 0

/-- Source `compute_break_even_row` (app.py lines 878-884): divide the fixed costs
`people_fixed_monthly + other` by `mr = margin_pct/100` when `mr > 0`, else
return `None`. -/
def compute_break_even_row (rev cogs other pf fb : ℚ) : Option ℚ :=
  if 0 < margin_pct_of rev cogs fb / 100
  then some ((pf + other) / (margin_pct_of rev cogs fb / 100))
  else none

/-- The denominator of the `df_full["BreakEvenRevenue"]` formula (app.py line
915): the raw margin ratio `(rev - cogs)/rev` when `rev > 0`, else `0.4`.
No floor is applied: at `rev = cogs > 0` this denominator is exactly `0`
(the Python float division then degenerates instead of being guarded). -/
def df_full_be_denom (rev cogs : ℚ) : ℚ :=
  if 0 < rev then (rev - cogs) / rev else 2 / 5

/-- The spec's guard constant `ε = 1e-6` (§4.4); it appears nowhere in the
source. -/
def epsilon : ℚ := 1 / 1000000

/-- The spec's claimed estimator (§4.4, written here only for comparison):
mean of `costOfSales/revenueActual` over rows with positive revenue, clamped
to `[0, 0.95]`, defaulting to `0.25`. -/
def claimed_infer_cost_share (rows : List DashRow) : ℚ :=
  let shares := (rows.filter (fun r => decide (0 < r.revenueActual))).map
    (fun r => r.costOfSales / r.revenueActual)
  if shares = [] then 1 / 4
  else max 0 (min (95 / 100) (shares.sum / (shares.length : ℚ)))

/-- The spec's claimed break-even contract (§4.4, for comparison):
`fixedCosts / max(ε, 1 - costRatio)`. -/
def claimed_break_even (fixedCosts cr : ℚ) : ℚ :=
  fixedCosts / max epsilon (1 - cr)

end Tracking

namespace Tracking

/-- C2 (counterexample): on a window with no recorded actuals and a month
with `peopleFixed = 300`, `other = 0`, the code divides by the fallback
margin ratio `0.4` giving `750`, while the claimed formula
`fixedCosts / max(ε, 1 - costRatio)` with the claimed default ratio `0.25`
gives `400`. -/
theorem tracking_c2_counterexample :
    compute_break_even_row 0 0 0 300 (fallback_margin []) = some 750 ∧
    claimed_break_even (300 + 0) (claimed_infer_cost_share []) = 400 ∧
    ((400 : ℚ) ≠ 750) := by
  refine ⟨?_, ?_, by norm_num⟩
  · norm_num [compute_break_even_row, margin_pct_of, fallback_margin, valid_margins]
  · have hmax : max epsilon (1 - claimed_infer_cost_share []) = 3 / 4 := by
      rw [max_eq_right]
      · norm_num [claimed_infer_cost_share]
      · norm_num [claimed_infer_cost_share, epsilon]
    rw [claimed_break_even, hmax]
    norm_num

/-- C2 (amended): for every month row the break-even revenue equals
`(peopleFixed + otherOverheads) / (m/100)` where `m` is the row's own margin
percent when the revenue and that margin are positive, and otherwise the
window's fallback margin; with a positive fallback the division is always
performed and defined.  No `1e-6` epsilon floor exists anywhere. -/
theorem tracking_c2_amended (rev cogs other pf fb : ℚ) (hfb : 0 < fb) :
    compute_break_even_row rev cogs other pf fb =
      some ((pf + other) /
        ((if 0 < rev ∧ 0 < (rev - cogs) / rev * 100
          then (rev - cogs) / rev * 100 else fb) / 100)) := by
  have hm : margin_pct_of rev cogs fb =
      (if 0 < rev ∧ 0 < (rev - cogs) / rev * 100
       then (rev - cogs) / rev * 100 else fb) := by
    unfold margin_pct_of
    by_cases h : 0 < rev
    · by_cases h2 : 0 < (rev - cogs) / rev * 100
      · simp [h, h2, not_le.mpr h2]
      · simp [h, h2, not_lt.mp h2]
    · simp [h]
  have hpos : 0 < margin_pct_of rev cogs fb := by
    rw [hm]; split
    · next h => exact h.2
    · exact hfb
  unfold compute_break_even_row
  rw [if_pos (by positivity), hm]

/-- C2 witness: the amended formula at revenue `0`, fixed costs `300`,
fallback `40` evaluates to `750`. -/
theorem tracking_c2_witness :
    compute_break_even_row 0 0 0 300 40 = some 750 := by
  rw [tracking_c2_amended 0 0 0 300 40 (by norm_num)]
  norm_num

/-- C3 (counterexample): with no recorded rows the code's fallback margin is
`40.0`, i.e. an implied cost share of `0.6`, whereas the claim's configured
default ratio is `0.25`. -/
theorem tracking_c3_counterexample :
    fallback_margin [] = 40 ∧
    claimed_infer_cost_share [] = 1 / 4 ∧
    1 - fallback_margin [] / 100 = 3 / 5 ∧ ((3 : ℚ) / 5 ≠ 1 / 4) := by
  refine ⟨?_, ?_, ?_, by norm_num⟩ <;>
    norm_num [fallback_margin, valid_margins, claimed_infer_cost_share]

/-- C3 (amended): the code infers a fallback margin percent, not a cost
ratio: the mean of the window's `MarginPct` values that are present and
strictly positive, defaulting to `40.0` when none exist; the result is
always strictly positive (no `[0, 0.95]` clamp and no `0.25` default
appear in the code). -/
theorem tracking_c3_amended (rows : List DashRow) :
    0 < fallback_margin rows ∧
    fallback_margin rows =
      (if valid_margins rows = [] then 40
       else (valid_margins rows).sum / ((valid_margins rows).length : ℚ)) := by
  refine ⟨?_, rfl⟩
  unfold fallback_margin
  split
  · norm_num
  · next hne =>
    have hpos : ∀ m ∈ valid_margins rows, 0 < m := by
      intro m hm
      have := List.of_mem_filter hm
      simpa using this
    have hsum : 0 < (valid_margins rows).sum := List.sum_pos _ hpos hne
    have hlen : 0 < ((valid_margins rows).length : ℚ) := by
      have : 0 < (valid_margins rows).length := List.length_pos.mpr hne
      exact_mod_cast this
    exact div_pos hsum hlen

/-- C4 (counterexample): at a row with `revenueActual = costOfSales = 100`
the `df_full` break-even divides by the raw margin ratio, whose value is
exactly `0` — strictly below the claimed `1e-6` floor. -/
theorem tracking_c4_counterexample :
    df_full_be_denom 100 100 = 0 ∧ ((0 : ℚ) < epsilon) := by
  norm_num [df_full_be_denom, epsilon]

/-- C4 (amended): `compute_break_even_row` never divides by a nonpositive
quantity — it either returns `None` or divides by a strictly positive margin
ratio — but the guard is a positivity test plus fallback, not a `1e-6`
floor; and the `df_full` variant (line 915) applies no guard at all, its
denominator being `0` at a zero-margin row. -/
theorem tracking_c4_amended (rev cogs other pf fb : ℚ) :
    (compute_break_even_row rev cogs other pf fb = none ∨
      ∃ mr : ℚ, 0 < mr ∧
        compute_break_even_row rev cogs other pf fb = some ((pf + other) / mr)) ∧
    df_full_be_denom rev rev = (if 0 < rev then 0 else 2 / 5) := by
  constructor
  · unfold compute_break_even_row
    split
    · next h => exact Or.inr ⟨margin_pct_of rev cogs fb / 100, h, rfl⟩
    · exact Or.inl rfl
  · unfold df_full_be_denom
    split
    · next h => rw [sub_self, zero_div]
    · rfl

end Tracking

namespace Tracking

/-- Source `default_monthly_plan` (app.py lines 140-142, 768-770): one entry per
canonical month, each planned at `goal/12`. -/
def default_monthly_plan (goal : ℚ) : List PlanEntry :=
  MONTHS.map (fun m => PlanEntry.mk m (goal / 12))

/-- Source `default_monthly_actuals` (app.py lines 144-145, 771-772): one all-zero
entry per canonical month. -/
def default_monthly_actuals : List ActualEntry :=
  MONTHS.map (fun m => ActualEntry.mk m 0 0 0)

/-- The repair of the loaded plan table (app.py lines 774-775):
`if set(mp_df["Month"]) != set(MONTHS): mp_df = _default_mp(...)` — the array
is kept exactly when its SET of month names equals the canonical set. -/
def repair_monthly_plan (goal : ℚ) (l : List PlanEntry) : List PlanEntry :=
  if (l.map (fun e => e.month)).toFinset = MONTHS.toFinset then l
  else default_monthly_plan goal

/-- The repair of the loaded actuals table (app.py lines 776-777), same set
test. -/
def repair_monthly_actuals (l : List ActualEntry) : List ActualEntry :=
  if (l.map (fun e => e.month)).toFinset = MONTHS.toFinset then l
  else default_monthly_actuals

end Tracking

namespace Tracking

/-- C7 (counterexample): a loaded plan of 13 rows — the 12 defaults plus a
duplicate January — covers the canonical month set, so the repair keeps it
unchanged and the year block does NOT carry exactly 12 plan entries. -/
theorem tracking_c7_counterexample :
    repair_monthly_plan 0 (default_monthly_plan 0 ++ [PlanEntry.mk "January" 0]) =
      default_monthly_plan 0 ++ [PlanEntry.mk "January" 0] ∧
    (default_monthly_plan 0 ++ [PlanEntry.mk "January" 0]).length = 13 := by
  constructor
  · rw [repair_monthly_plan, if_pos (by decide)]
  · rfl

/-- C7 (amended): whenever a loaded plan or actuals array does not cover the
canonical 12-month set (in particular when a month is missing), the full
12-entry default array is regenerated and the partial data discarded; the
repair only guarantees coverage of the month set, not an exact count of 12,
since any array whose month set already equals the canonical set — even with
duplicate rows — is kept as-is. -/
theorem tracking_c7_amended (goal : ℚ) (l : List PlanEntry) (la : List ActualEntry)
    (hp : (l.map (fun e => e.month)).toFinset ≠ MONTHS.toFinset)
    (ha : (la.map (fun e => e.month)).toFinset ≠ MONTHS.toFinset) :
    repair_monthly_plan goal l = default_monthly_plan goal ∧
    (repair_monthly_plan goal l).length = 12 ∧
    ((repair_monthly_plan goal l).map (fun e => e.month)).toFinset = MONTHS.toFinset ∧
    repair_monthly_actuals la = default_monthly_actuals ∧
    (repair_monthly_actuals la).length = 12 ∧
    ((repair_monthly_actuals la).map (fun e => e.month)).toFinset = MONTHS.toFinset := by
  have h1 : repair_monthly_plan goal l = default_monthly_plan goal := by
    rw [repair_monthly_plan, if_neg hp]
  have h2 : repair_monthly_actuals la = default_monthly_actuals := by
    rw [repair_monthly_actuals, if_neg ha]
  have hmap : (default_monthly_plan goal).map (fun e => e.month) = MONTHS := rfl
  refine ⟨h1, ?_, ?_, h2, ?_, ?_⟩
  · rw [h1]; rfl
  · rw [h1, hmap]
  · rw [h2]; rfl
  · rw [h2]
    decide

/-- C7 witness: the empty loaded arrays are repaired to the 12-entry
defaults. -/
theorem tracking_c7_witness :
    repair_monthly_plan 0 [] = default_monthly_plan 0 ∧
    (repair_monthly_plan 0 []).length = 12 ∧
    ((repair_monthly_plan 0 ([] : List PlanEntry)).map (fun e => e.month)).toFinset =
      MONTHS.toFinset ∧
    repair_monthly_actuals [] = default_monthly_actuals ∧
    (repair_monthly_actuals []).length = 12 ∧
    ((repair_monthly_actuals ([] : List ActualEntry)).map (fun e => e.month)).toFinset =
      MONTHS.toFinset :=
  tracking_c7_amended 0 [] [] (by decide) (by decide)

end Tracking

namespace Tracking

/-- The list rotation `l[n:] + l[:n]`, the claim-side notion used to compose
two rotations. -/
def rotateIdx (n : ℕ) (l : List String) : List String := l.drop n ++ l.take n

/-- Source `idx = (start_month_idx - 1) % 12` (app.py line 846), with Python's
non-negative `%`. -/
def monthShift (k : ℤ) : ℕ := ((k - 1) % 12).toNat

/-- Source `rotate_months_from` (app.py lines 845-847):
`MONTHS[idx:] + MONTHS[:idx]` with `idx = (start_month_idx - 1) % 12`. -/
def rotate_months_from (start : ℤ) : List String := rotateIdx (monthShift start) MONTHS

lemma monthShift_lt (k : ℤ) : monthShift k < 12 := by
  unfold monthShift
  have h1 : 0 ≤ (k - 1) % 12 := Int.emod_nonneg _ (by norm_num)
  have h2 : (k - 1) % 12 < 12 := Int.emod_lt_of_pos _ (by norm_num)
  omega

lemma rotate_months_eq (k : ℤ) : rotate_months_from k = MONTHS.rotate (monthShift k) := by
  have hn : monthShift k ≤ MONTHS.length := by
    have := monthShift_lt k
    simp only [MONTHS, List.length]
    omega
  exact (List.rotate_eq_drop_append_take hn).symm

end Tracking

namespace Tracking

/-- C8 (counterexample): composing `rotate(1)` with `rotate(1)` (two
identities) yields the canonical order, but a single rotate by
`(1+1) mod 12 = 2` starts at February — the claimed mod-12-sum composition
law fails because the index is 1-based. -/
theorem tracking_c8_counterexample :
    rotateIdx (monthShift 1) (rotate_months_from 1) ≠ rotate_months_from ((1 + 1) % 12) := by
  decide

/-- C8 (amended): `rotate_months_from` accepts any integer (its shift is
taken mod 12 with a non-negative remainder), always returns a permutation of
the 12 canonical months, `rotate(1)` is the identity, and composing the
rotation of `k2` on top of `rotate(k1)` equals the single rotation
`rotate(k1 + k2 - 1)` — the 1-based index makes the composed start index
`k1 + k2 - 1`, not `(k1 + k2) mod 12`. -/
theorem tracking_c8_amended (k1 k2 : ℤ) :
    (rotate_months_from k1).Perm MONTHS ∧
    rotate_months_from 1 = MONTHS ∧
    rotateIdx (monthShift k2) (rotate_months_from k1) = rotate_months_from (k1 + k2 - 1) := by
  refine ⟨?_, ?_, ?_⟩
  · rw [rotate_months_eq]
    exact List.rotate_perm MONTHS (monthShift k1)
  · rw [rotate_months_eq]
    have h0 : monthShift 1 = 0 := by decide
    rw [h0, List.rotate_zero]
  · have hlen : (MONTHS.rotate (monthShift k1)).length = 12 := by
      rw [List.length_rotate]
      rfl
    have hstep : rotateIdx (monthShift k2) (MONTHS.rotate (monthShift k1)) =
        (MONTHS.rotate (monthShift k1)).rotate (monthShift k2) := by
      refine (List.rotate_eq_drop_append_take ?_).symm
      rw [hlen]
      exact (monthShift_lt k2).le
    have hkey : (monthShift k1 + monthShift k2) % 12 = monthShift (k1 + k2 - 1) % 12 := by
      unfold monthShift
      omega
    rw [rotate_months_eq k1, hstep, List.rotate_rotate, rotate_months_eq (k1 + k2 - 1)]
    have hl : MONTHS.length = 12 := rfl
    rw [← List.rotate_mod MONTHS (monthShift k1 + monthShift k2),
      ← List.rotate_mod MONTHS (monthShift (k1 + k2 - 1)), hl, hkey]

end Tracking

namespace Tracking

/-- Modelled from the spec: the RatePlanner (Trade Profit Calculator) of spec
§4.5 is absent from `src/app.py`; its team-member record
`{name, role, hourlyWageCost, vanMonthly, paidHoursPerWeek, utilisationPct,
quotesPerWeek, quoteToJobPct, avgJobHours}` follows §3. -/
structure TeamMember where
  name : String
  role : String
  hourlyWageCost : ℚ
  vanMonthly : ℚ
  paidHoursPerWeek : ℚ
  utilisationPct : ℚ
  quotesPerWeek : ℚ
  quoteToJobPct : ℚ
  avgJobHours : ℚ
deriving DecidableEq

/-- Modelled from the spec: `hoursSource ∈ {Capacity, Demand}` (§4.5). -/
inductive HoursSource where
  | capacity
  | demand
deriving DecidableEq

/-- Modelled from the spec: `targetMode ∈ {ProfitAmount, MarginPercent}` with
the corresponding target value (§4.5). -/
inductive TargetMode where
  | profitAmount (targetProfit : ℚ)
  | marginPercent (targetMarginPct : ℚ)
deriving DecidableEq

/-- Modelled from the spec: `paidHoursPeriod = paidHoursPerWeek * weeks`. -/
def paidHoursPeriod (weeks : ℚ) (m : TeamMember) : ℚ := m.paidHoursPerWeek * weeks

/-- Modelled from the spec:
`billableHoursCapacity = paidHoursPeriod * utilisationPct/100`. -/
def billableHoursCapacity (weeks : ℚ) (m : TeamMember) : ℚ :=
  paidHoursPeriod weeks m * m.utilisationPct / 100

/-- Modelled from the spec:
`jobsFromQuotes = quotesPerWeek * weeks * quoteToJobPct/100`. -/
def jobsFromQuotes (weeks : ℚ) (m : TeamMember) : ℚ :=
  m.quotesPerWeek * weeks * m.quoteToJobPct / 100

/-- Modelled from the spec: `billableHoursDemand = jobsFromQuotes * avgJobHours`. -/
def billableHoursDemand (weeks : ℚ) (m : TeamMember) : ℚ :=
  jobsFromQuotes weeks m * m.avgJobHours

/-- Modelled from the spec: `wageCostPeriod = hourlyWageCost * paidHoursPeriod`. -/
def wageCostPeriod (weeks : ℚ) (m : TeamMember) : ℚ :=
  m.hourlyWageCost * paidHoursPeriod weeks m

/-- Modelled from the spec: monthly amounts pro-rated by `weeks/4.33`. -/
def periodScale (weeks : ℚ) : ℚ := weeks / (433 / 100)

/-- Modelled from the spec: `vanCostPeriod = vanMonthly * (weeks/4.33)`. -/
def vanCostPeriod (weeks : ℚ) (m : TeamMember) : ℚ := m.vanMonthly * periodScale weeks

/-- Modelled from the spec: the selected per-member billable hours. -/
def billableHours (src : HoursSource) (weeks : ℚ) (m : TeamMember) : ℚ :=
  match src with
  | .capacity => billableHoursCapacity weeks m
  | .demand => billableHoursDemand weeks m

/-- Modelled from the spec: `H = Σ billableHours` over the roster. -/
def aggH (src : HoursSource) (weeks : ℚ) (team : List TeamMember) : ℚ :=
  (team.map (billableHours src weeks)).sum

/-- Modelled from the spec: `peopleCosts = Σ (wageCostPeriod + vanCostPeriod)`. -/
def peopleCosts (weeks : ℚ) (team : List TeamMember) : ℚ :=
  (team.map (fun m => wageCostPeriod weeks m + vanCostPeriod weeks m)).sum

/-- Modelled from the spec (§4.5 rate equation): the required blended hourly
rate in either target mode, `0` when `H = 0` (spec: `if H>0 else 0`), with
the `max(ε, ·)` denominator clamp. -/
def requiredRate (weeks materialsPct marketingPerMonth otherPerMonth : ℚ)
    (src : HoursSource) (mode : TargetMode) (team : List TeamMember) : ℚ :=
  if 0 < aggH src weeks team then
    match mode with
    | .profitAmount tp =>
        (tp + peopleCosts weeks team + marketingPerMonth * periodScale weeks +
          otherPerMonth * periodScale weeks) /
          max epsilon (aggH src weeks team * (1 - materialsPct / 100))
    | .marginPercent tM =>
        (peopleCosts weeks team + marketingPerMonth * periodScale weeks +
          otherPerMonth * periodScale weeks) /
          max epsilon (aggH src weeks team * (1 - materialsPct / 100 - tM / 100))
  else 0

/-- Modelled from the spec (§4.5 per-person allocation):
`revenueAtRequired_i = requiredRate * billableHours_i`. -/
def revenueAtRequired (weeks materialsPct marketingPerMonth otherPerMonth : ℚ)
    (src : HoursSource) (mode : TargetMode) (team : List TeamMember)
    (m : TeamMember) : ℚ :=
  requiredRate weeks materialsPct marketingPerMonth otherPerMonth src mode team *
    billableHours src weeks m

end Tracking

namespace Tracking

/-- C9: when the aggregate billable hours are zero the solver returns
`requiredRate = 0` and every roster member's revenue figure is `0`; no
error path exists (the function is total). -/
theorem tracking_c9_zero_hours (weeks materialsPct marketingPerMonth otherPerMonth : ℚ)
    (src : HoursSource) (mode : TargetMode) (team : List TeamMember)
    (hH : aggH src weeks team = 0) :
    requiredRate weeks materialsPct marketingPerMonth otherPerMonth src mode team = 0 ∧
    ∀ m ∈ team,
      revenueAtRequired weeks materialsPct marketingPerMonth otherPerMonth src mode team m = 0 := by
  have h0 : requiredRate weeks materialsPct marketingPerMonth otherPerMonth src mode team = 0 := by
    unfold requiredRate
    rw [hH]
    norm_num
  refine ⟨h0, ?_⟩
  intro m _
  unfold revenueAtRequired
  rw [h0, zero_mul]

/-- C9 witness: a one-member roster with zero paid hours has `H = 0`; the
rate and the member's revenue are both `0`. -/
theorem tracking_c9_witness :
    requiredRate 1 0 0 0 HoursSource.capacity (TargetMode.profitAmount 0)
      [TeamMember.mk "A" "r" 0 0 0 0 0 0 0] = 0 ∧
    revenueAtRequired 1 0 0 0 HoursSource.capacity (TargetMode.profitAmount 0)
      [TeamMember.mk "A" "r" 0 0 0 0 0 0 0] (TeamMember.mk "A" "r" 0 0 0 0 0 0 0) = 0 := by
  have h := tracking_c9_zero_hours 1 0 0 0 HoursSource.capacity (TargetMode.profitAmount 0)
    [TeamMember.mk "A" "r" 0 0 0 0 0 0 0]
    (by norm_num [aggH, billableHours, billableHoursCapacity, paidHoursPeriod])
  exact ⟨h.1, h.2 (TeamMember.mk "A" "r" 0 0 0 0 0 0 0) (by simp)⟩

end Tracking
